import Mathlib

/-!
Verification of the framed-transport layer of the DTM daemon
(`src/contrib/multimaster/dtmd/src/server.c`).

The C file is a single-threaded event-loop TCP server that frames a
custom protocol (`{u32 size, u8 code, u32 chan}` header followed by
`size` payload bytes) over many connections.  This development gives a
shallow embedding of the functions of that file:

* the input-side processing loop of `server_stream_handle`
  (lines 412-480), including the client table of `stream_get_client`
  (lines 395-410) and the disconnect handling;
* the output-side reply builder `stream_message_start` /
  `stream_message_append` / `stream_message_finish` (lines 271-342)
  and `stream_flush` (lines 168-198), modelled at the byte level;
* the per-tick structure of `server_loop` (lines 482-529):
  event handling, then `server_close_bad_streams` (lines 256-269),
  then `server_flush` (lines 200-206).

Machine integers are modelled as `Nat` with explicit truncation where
the C arithmetic can overflow: in particular the C statement
`int header_and_data = sizeof(ShubMessageHdr) + msg->size;` converts
an unsigned (`size_t`) sum to `int`, which wraps modulo `2^32`; this
conversion is modelled exactly (`toInt32`) because it is observable.

C `assert` failures abort the process; they are modelled as a `crash`
outcome.  Reads or writes outside the allocated buffers are C
undefined behaviour; they are modelled as a `ub` outcome.
-/

/-- Modelled from the spec: the fixed per-connection buffer capacity
`BUFFER_SIZE` is defined in the repository's `limits.h`, which is not
part of the sources; the spec only states it is a fixed configured
capacity.  We fix a representative value. -/
def BUFFER_SIZE : Nat := 1024

/-- Modelled from the spec: the per-connection channel-table maximum
`MAX_TRANSACTIONS` (the spec's `MAX_CHANNELS`) is defined in the
repository's `limits.h`, which is not part of the sources.  We fix a
representative value; the code only compares channel ids against it. -/
def MAX_TRANSACTIONS : Nat := 1024

/-- Modelled from the spec: the reserved disconnect code
`MSG_DISCONNECT` is defined in the repository's `sockhub.h`, which is
not part of the sources; the spec says the exact value is an
implementation choice.  We fix a representative value. -/
def MSG_DISCONNECT : Nat := 0

/-- Modelled from the spec: the wire header is byte-exact
`{u32 size, u8 code, u32 chan}` (spec section 6), so the header
occupies 9 bytes.  The C code writes `sizeof(ShubMessageHdr)` with
the struct declared in the missing `sockhub.h`. -/
def sizeofShubMessageHdr : Nat := 9

/-- `stream_message_start` hard-codes `msg->code = 'r'` (ASCII 114)
for every outgoing reply frame (server.c line 290). -/
def replyCode : Nat := 114

/-- Little-endian encoding of a `u32` value into four bytes
(truncating modulo `2^32`, as storing into a `u32` field does). -/
def encodeU32 (n : Nat) : List Nat :=
  [n % 256, n / 256 % 256, n / 65536 % 256, n / 16777216 % 256]

/-- Little-endian decoding of (up to) four bytes into a `u32` value. -/
def decodeU32 (bs : List Nat) : Nat :=
  bs.getD 0 0 + 256 * bs.getD 1 0 + 65536 * bs.getD 2 0 + 16777216 * bs.getD 3 0

/-- Conversion of an unsigned value to a C 32-bit `int`
(gcc/clang semantics: reduce modulo `2^32`, reinterpret as signed). -/
def toInt32 (n : Nat) : Int :=
  let m := n % 4294967296
  if m < 2147483648 then (m : Int) else (m : Int) - 4294967296

/-- Write the byte string `bs` into `d` starting at position `pos`
(zero-padding if `pos` lies past the end of the meaningful bytes). -/
def writeBytes (d : List Nat) (pos : Nat) (bs : List Nat) : List Nat :=
  (d.take pos ++ List.replicate (pos - d.length) 0) ++ bs ++ d.drop (pos + bs.length)

/-! ## Client table (`client_data_t`, `stream_get_client`) -/

/-- The per-connection channel table `stream->clients`: a map from
channel id to the slot's user state, `none` meaning the slot is empty
(`client->stream == NULL`).  `some u` is an occupied slot whose
`userdata` is `u` (`0` standing for the C `NULL`). -/
def ClientTable : Type := Nat → Option Nat

/-- The table of a freshly initialised stream: all slots empty
(`stream_init`, lines 226-228). -/
def emptyClients : ClientTable := fun _ => none

/-- `stream_get_client` (lines 395-410) without its leading assert:
if the slot is empty the client is new, so the slot is occupied and
its `userdata` zero-initialised; otherwise the slot is returned
untouched.  Returns the updated table and the `isnew` flag. -/
def stream_get_client (tbl : ClientTable) (chan : Nat) : ClientTable × Bool :=
  match tbl chan with
  | none => (fun c => if c = chan then some 0 else tbl c, true)
  | some _ => (tbl, false)

/-- Clearing a slot (`client->stream = NULL`, line 454). -/
def clearClient (tbl : ClientTable) (chan : Nat) : ClientTable :=
  fun c => if c = chan then none else tbl c

/-! ## Inbound frames and dispatch events -/

/-- A decoded wire frame: the header fields and the payload bytes that
are actually present in the buffer (the `size` field is the *declared*
payload length; the C code passes the declared length and a pointer,
so `payload` holds the bytes available in the buffer). -/
structure Frame where
  size : Nat
  code : Nat
  chan : Nat
  payload : List Nat
deriving DecidableEq, Repr

/-- A callback invocation observed by the upper layer. -/
inductive Event where
  | connect : Nat → Event
  | disconnect : Nat → Event
  | message : Nat → Nat → List Nat → Event
deriving DecidableEq, Repr

/-- Handling of one complete frame inside the loop of
`server_stream_handle` (lines 440-457): resolve the client (the
`assert(chan < MAX_TRANSACTIONS)` of `stream_get_client` aborts the
process, modelled as `none`), emit `onconnect` for a fresh slot, then
either handle the disconnect code (emit `ondisconnect`, clear the
slot) or dispatch `onmessage` with the declared size and the payload. -/
def handleFrame (tbl : ClientTable) (f : Frame) : Option (List Event × ClientTable) :=
  if f.chan < MAX_TRANSACTIONS then
    let r := stream_get_client tbl f.chan
    let evs0 := if r.2 then [Event.connect f.chan] else []
    if f.code = MSG_DISCONNECT then
      some (evs0 ++ [Event.disconnect f.chan], clearClient r.1 f.chan)
    else
      some (evs0 ++ [Event.message f.chan f.size f.payload], r.1)
  else
    none

/-- Outcome of the processing loop of `server_stream_handle`
(lines 434-471).  `okDone` is the normal return (`true`): dispatched
events, final client table, and the leftover tail bytes that line 475
compacts to the start of the buffer.  `bad` is the early `false`
return of lines 462-468 (`good = false`, buffer left as is).  `crash`
is an `assert` failure, `ub` a read outside the buffer, and `fuelOut`
marks non-termination of the C loop (reachable: a size field of
`2^32 - 9` makes `header_and_data` equal `0`, so the cursor never
advances). -/
inductive LoopOut where
  | okDone : List Event → ClientTable → List Nat → LoopOut
  | bad : List Event → ClientTable → LoopOut
  | crash : List Event → LoopOut
  | ub : List Event → LoopOut
  | fuelOut : List Event → LoopOut

/-- Prefix already-dispatched events onto a loop outcome. -/
def LoopOut.prepend (evs : List Event) : LoopOut → LoopOut
  | .okDone e t l => .okDone (evs ++ e) t l
  | .bad e t => .bad (evs ++ e) t
  | .crash e => .crash (evs ++ e)
  | .ub e => .ub (evs ++ e)
  | .fuelOut e => .fuelOut (evs ++ e)

/-- The events of a loop outcome. -/
def LoopOut.evs : LoopOut → List Event
  | .okDone e _ _ => e
  | .bad e _ => e
  | .crash e => e
  | .ub e => e
  | .fuelOut e => e

/-- Whether the loop returned normally (`return true`). -/
def LoopOut.isOkDone : LoopOut → Bool
  | .okDone _ _ _ => true
  | _ => false

/-- The leftover tail bytes of a normal return (else `[]`). -/
def LoopOut.leftover : LoopOut → List Nat
  | .okDone _ _ l => l
  | _ => []

/-- The processing loop of `server_stream_handle` (lines 434-471).
`data` is the full content of the input buffer (`input.ready` bytes);
`tp` is the C variable `toprocess`; the C cursor is
`data.length - tp` (cursor and `toprocess` move in lockstep).
Each iteration with `toprocess >= sizeof(ShubMessageHdr)` overlays a
header at the cursor, computes
`int header_and_data = sizeof(ShubMessageHdr) + msg->size` — note the
truncating `int` conversion, modelled by `toInt32` — and either
handles the message and advances, or returns `false` when the frame
can never fit (`header_and_data > BUFFER_SIZE`), or breaks.  The
`fuel` argument only bounds the model's recursion; `data.length + 1`
steps reach every exit of the C loop except genuine divergence. -/
def processLoop (fuel : Nat) (tbl : ClientTable) (data : List Nat) (tp : Nat) : LoopOut :=
  match fuel with
  | 0 => .fuelOut []
  | fuel + 1 =>
    if tp < sizeofShubMessageHdr then
      .okDone [] tbl (data.drop (data.length - tp))
    else if data.length < tp then
      -- the cursor points before the start of the buffer: UB read
      .ub []
    else
      let rest := data.drop (data.length - tp)
      let size := decodeU32 (rest.take 4)
      let code := rest.getD 4 0
      let chan := decodeU32 ((rest.drop 5).take 4)
      let had : Int := toInt32 (sizeofShubMessageHdr + size)
      if had ≤ (tp : Int) then
        match handleFrame tbl ⟨size, code, chan, (rest.drop sizeofShubMessageHdr).take size⟩ with
        | none => .crash []
        | some (evs, tbl') =>
          (processLoop fuel tbl' data ((tp : Int) - had).toNat).prepend evs
      else if had > (BUFFER_SIZE : Int) then
        .bad [] tbl
      else
        .okDone [] tbl rest

/-! ## Specification-side framer

`splitFramesSpec` is written from the spec's words, not from the C
code: "the read path dispatches a frame iff the buffered bytes
contain a complete header plus `size` payload bytes", "partial tail
bytes are compacted to buffer start".  It greedily splits the
buffered bytes into the complete frames and the leftover tail, using
exact (non-wrapping) arithmetic.  It exists to be compared with
`processLoop`. -/

/-- Spec-side greedy framer: the list of complete frames present in
`bs` and the partial tail. -/
def splitFramesSpec (bs : List Nat) : List Frame × List Nat :=
  if _h : bs.length < sizeofShubMessageHdr then
    ([], bs)
  else
    let size := decodeU32 (bs.take 4)
    if _h2 : sizeofShubMessageHdr + size ≤ bs.length then
      let f : Frame := ⟨size, bs.getD 4 0, decodeU32 ((bs.drop 5).take 4),
                        (bs.drop sizeofShubMessageHdr).take size⟩
      let r := splitFramesSpec (bs.drop (sizeofShubMessageHdr + size))
      (f :: r.1, r.2)
    else
      ([], bs)
termination_by bs.length
decreasing_by
  simp only [List.length_drop, sizeofShubMessageHdr] at *
  omega

/-- Dispatching a list of frames in order through `handleFrame`,
threading the client table; `none` if some frame aborts. -/
def dispatchFrames (tbl : ClientTable) : List Frame → Option (List Event × ClientTable)
  | [] => some ([], tbl)
  | f :: fs =>
    match handleFrame tbl f with
    | none => none
    | some (evs, tbl1) =>
      match dispatchFrames tbl1 fs with
      | none => none
      | some (evs2, tbl2) => some (evs ++ evs2, tbl2)

/-- All size fields reachable by the greedy parse keep
`sizeofShubMessageHdr + size` below `2^31`, so the C `int` conversion
of `header_and_data` is lossless.  (Adversarial size fields near
`2^32` violate this; see the counterexamples.) -/
def sizesOk (bs : List Nat) : Bool :=
  if _h : bs.length < sizeofShubMessageHdr then
    true
  else
    let size := decodeU32 (bs.take 4)
    decide (sizeofShubMessageHdr + size < 2147483648) &&
      (if _h2 : sizeofShubMessageHdr + size ≤ bs.length then
        sizesOk (bs.drop (sizeofShubMessageHdr + size))
      else
        true)
termination_by bs.length
decreasing_by
  simp only [List.length_drop, sizeofShubMessageHdr] at *
  omega

/-- All complete frames in `bs` carry a channel id below
`MAX_TRANSACTIONS` (so no `assert` fires during dispatch). -/
def chansOk (bs : List Nat) : Bool :=
  ((splitFramesSpec bs).1).all fun f => decide (f.chan < MAX_TRANSACTIONS)

/-- The partial tail is either shorter than a header or declares a
total length that still fits the buffer (so the loop breaks instead
of returning `false` at lines 462-468). -/
def tailOk (bs : List Nat) : Bool :=
  let t := (splitFramesSpec bs).2
  decide (t.length < sizeofShubMessageHdr) ||
    decide (sizeofShubMessageHdr + decodeU32 (t.take 4) ≤ BUFFER_SIZE)

/-! ## Output buffer and the reply builder

The output buffer (`buffer_t output`) is modelled at the byte level:
`data` holds the meaningful bytes of the fixed `BUFFER_SIZE` C buffer
(committed bytes followed by the in-progress message, if any; the C
buffer's remaining bytes are uninitialised garbage and are not
represented), `ready` is `output.ready`, and `curOff` is the offset
of `output.curmessage` inside the buffer (`none` for `NULL`). -/

structure OutBuf where
  data : List Nat
  ready : Nat
  curOff : Option Nat
deriving DecidableEq, Repr

/-- A stream as seen by the output path: the `good` flag and the
output buffer. -/
structure OStream where
  good : Bool
  out : OutBuf
deriving DecidableEq, Repr

/-- Result of one C call on the output path: a boolean return with
the post-state, an out-of-bounds write (C undefined behaviour), or
an `assert` failure aborting the process. -/
inductive OpRes where
  | ret : Bool → OStream → OpRes
  | ub : OpRes
  | crash : OpRes
deriving DecidableEq, Repr

/-- The size field of the current message, read from the buffer
(`msg->size`), or `0` when no message is in progress. -/
def msgSize (o : OutBuf) : Nat :=
  match o.curOff with
  | none => 0
  | some off => decodeU32 ((o.data.drop off).take 4)

/-- `stream_flush` (lines 168-198), with the success of the `send`
syscalls abstracted by `sendOk`.  Returns the bytes handed to `send`,
the boolean C return value, and the post-state.  With nothing ready
it returns `true` immediately.  On a send error the C code marks the
stream bad and returns `false` with `ready` untouched.  On success
`ready` becomes `0` and an unfinished message is moved to the start
of the buffer (the `memmove` of line 193 copies
`msg->size + sizeof(ShubMessageHdr)` bytes). -/
def stream_flush (s : OStream) (sendOk : Bool) : List Nat × Bool × OStream :=
  if s.out.ready = 0 then
    ([], true, s)
  else if !sendOk then
    ([], false, { s with good := false })
  else
    let sent := s.out.data.take s.out.ready
    match s.out.curOff with
    | none =>
      (sent, true, { s with out := ⟨[], 0, none⟩ })
    | some off =>
      let sz := decodeU32 ((s.out.data.drop off).take 4)
      (sent, true,
        { s with out := ⟨(s.out.data.drop off).take (sizeofShubMessageHdr + sz), 0, some 0⟩ })

/-- `stream_message_start` (lines 271-294): fail (marking the stream
bad) if a message is already in progress; flush first when fewer than
`sizeof(ShubMessageHdr)` bytes of room remain; then place a fresh
header `{size = 0, code = 'r', chan}` at `data + ready`.  Writing the
header past the buffer end would be UB (unreachable from states
satisfying `OutWF`). -/
def stream_message_start (s : OStream) (chan : Nat) (sendOk : Bool) : OpRes :=
  match s.out.curOff with
  | some _ => .ret false { s with good := false }
  | none =>
    let fr := if BUFFER_SIZE - s.out.ready < sizeofShubMessageHdr
              then stream_flush s sendOk
              else ([], true, s)
    match fr with
    | (_, false, s1) => .ret false { s1 with good := false }
    | (_, true, s1) =>
      if s1.out.ready + sizeofShubMessageHdr > BUFFER_SIZE then
        .ub
      else
        let hdr := encodeU32 0 ++ [replyCode] ++ encodeU32 chan
        .ret true { s1 with out := ⟨writeBytes s1.out.data s1.out.ready hdr,
                                    s1.out.ready, some s1.out.ready⟩ }

/-- `stream_message_append` (lines 296-328): fail (marking the stream
bad) if no message is in progress; compute
`int newsize = msg->size + sizeof(ShubMessageHdr) + len` — again a
truncating `int` conversion of an unsigned sum, modelled by `toInt32`
— and fail if it exceeds `BUFFER_SIZE`; flush first if the committed
bytes plus `newsize` exceed `BUFFER_SIZE`; then `memcpy` the payload
after the message and add `len` to the `u32` size field.  A `memcpy`
past the buffer end (which the wrapped `newsize` check fails to
prevent for huge `len`) is UB. -/
def stream_message_append (s : OStream) (payload : List Nat) (sendOk : Bool) : OpRes :=
  match s.out.curOff with
  | none => .ret false { s with good := false }
  | some off =>
    let sz := decodeU32 ((s.out.data.drop off).take 4)
    let newsize : Int := toInt32 (sz + sizeofShubMessageHdr + payload.length)
    if newsize > (BUFFER_SIZE : Int) then
      .ret false { s with good := false }
    else
      let fr := if (s.out.ready : Int) + newsize > (BUFFER_SIZE : Int)
                then stream_flush s sendOk
                else ([], true, s)
      match fr with
      | (_, false, s1) => .ret false { s1 with good := false }
      | (_, true, s1) =>
        let off1 := s1.out.curOff.getD 0
        let sz1 := decodeU32 ((s1.out.data.drop off1).take 4)
        if off1 + sizeofShubMessageHdr + sz1 + payload.length > BUFFER_SIZE then
          .ub
        else
          let d1 := writeBytes s1.out.data (off1 + sizeofShubMessageHdr + sz1) payload
          let d2 := writeBytes d1 off1 (encodeU32 (sz1 + payload.length))
          .ret true { s1 with out := ⟨d2, s1.out.ready, some off1⟩ }

/-- `stream_message_finish` (lines 330-342): fail (marking the stream
bad) if no message is in progress; otherwise commit the message by
adding `msg->size + sizeof(ShubMessageHdr)` to `ready` and clearing
the cursor.  The `assert(stream->output.ready <= BUFFER_SIZE)` of
line 340 aborts the process when violated. -/
def stream_message_finish (s : OStream) : OpRes :=
  match s.out.curOff with
  | none => .ret false { s with good := false }
  | some off =>
    let sz := decodeU32 ((s.out.data.drop off).take 4)
    let ready1 := s.out.ready + sz + sizeofShubMessageHdr
    if ready1 > BUFFER_SIZE then
      .crash
    else
      .ret true { s with out := ⟨s.out.data, ready1, none⟩ }

/-- Well-formedness of an output buffer, as established by
`stream_init` and preserved by the output operations: the committed
bytes sit at the front of the buffer, the in-progress message (when
present) begins exactly at `ready` — the C invariant
`curmessage == data + ready` — and everything fits in `BUFFER_SIZE`. -/
def OutWF (o : OutBuf) : Prop :=
  match o.curOff with
  | none => o.data.length = o.ready ∧ o.ready ≤ BUFFER_SIZE
  | some off =>
    off = o.ready ∧ o.data.length = o.ready + sizeofShubMessageHdr + msgSize o ∧
      o.data.length ≤ BUFFER_SIZE

instance (o : OutBuf) : Decidable (OutWF o) := by
  unfold OutWF
  match o.curOff with
  | none => exact inferInstanceAs (Decidable (_ ∧ _))
  | some off => exact inferInstanceAs (Decidable (_ ∧ _ ∧ _))

/-- The output buffer of a freshly initialised stream
(`stream_init`, lines 215-218). -/
def freshOut : OutBuf := ⟨[], 0, none⟩

/-! ## The event loop tick (`server_loop`, `server_close_bad_streams`,
`server_flush`)

One iteration of the `while (1)` loop of `server_loop` (epoll branch,
lines 486-527): handle the readiness events, then reap bad streams
(`server_close_bad_streams`), then flush the remaining streams
(`server_flush`).  Streams are identified by their index in the input
list. -/

/-- A stream as seen by the event loop: `good` flag, client table,
input-buffer content (`input.ready` bytes) and output buffer. -/
structure SStream where
  good : Bool
  tbl : ClientTable
  inbuf : List Nat
  out : OutBuf

/-- What epoll reports for one stream in one tick: nothing, an
`EPOLLERR`, or `EPOLLIN` with the bytes the peer has sent
(`[]` meaning the peer closed the connection, so `recv` returns 0). -/
inductive TickEv where
  | quiet : TickEv
  | err : TickEv
  | dataIn : List Nat → TickEv

/-- `server_stream_handle` (lines 412-480): `recv` up to
`BUFFER_SIZE - input.ready` bytes (the `assert(avail > 0)` of
line 417 aborts when the buffer is already full), mark the stream bad
on EOF, otherwise run the processing loop; on a normal return the
leftover tail is compacted to the buffer start and `input.ready` set
to its length (lines 474-477); on the `false` return of lines 462-468
the stream is bad and the buffer is left as it was.  `none` means the
process did not continue normally (assert failure, UB or
divergence). -/
def server_stream_handle (s : SStream) (bs : List Nat) : Option (List Event × SStream) :=
  if BUFFER_SIZE - s.inbuf.length = 0 then
    none
  else
    let recved := bs.take (BUFFER_SIZE - s.inbuf.length)
    if recved.isEmpty then
      some ([], { s with good := false })
    else
      let data := s.inbuf ++ recved
      match processLoop (data.length + 1) s.tbl data data.length with
      | .okDone evs tbl1 leftover => some (evs, { s with tbl := tbl1, inbuf := leftover })
      | .bad evs tbl1 => some (evs, { s with good := false, tbl := tbl1, inbuf := data })
      | _ => none

/-- Phase 1 of a tick: what `server_loop` does with one epoll event
(lines 493-503): `EPOLLERR` marks the stream bad, `EPOLLIN` runs
`server_stream_handle`. -/
def applyTickEv (s : SStream) : TickEv → Option (List Event × SStream)
  | .quiet => some ([], s)
  | .err => some ([], { s with good := false })
  | .dataIn bs => server_stream_handle s bs

/-- `server_stream_destroy` (lines 231-244) walks the whole client
table and invokes `ondisconnect` for every occupied slot; afterwards
the stream's buffers and table are freed.  These are the emitted
events. -/
def server_stream_destroy_events (tbl : ClientTable) : List Event :=
  (List.range MAX_TRANSACTIONS).filterMap fun c =>
    if (tbl c).isSome then some (Event.disconnect c) else none

/-- Result of one tick: the events dispatched during handling, the
`ondisconnect` events emitted while destroying reaped streams, the
indices of the destroyed streams, the flush attempts of the final
`server_flush` (index and bytes handed to `send`; `stream_flush`
calls `send` only when `ready > 0`), and the surviving streams with
their indices. -/
structure TickResult where
  events : List (Nat × Event)
  destroyEvents : List (Nat × Event)
  destroyed : List Nat
  flushAttempts : List (Nat × List Nat)
  survivors : List (Nat × SStream)

/-- The handling phase of one tick, stream by stream in chain order:
index, events emitted, post-handling state; `none` if some handler
aborted the process. -/
def tickStep : List (Nat × SStream × TickEv) → Option (List (Nat × List Event × SStream))
  | [] => some []
  | (i, s, e) :: rest =>
    match applyTickEv s e with
    | none => none
    | some (es, s1) =>
      match tickStep rest with
      | none => none
      | some l => some ((i, es, s1) :: l)

/-- One tick of `server_loop` (lines 483-528): apply each stream's
readiness event, then `server_close_bad_streams` (lines 256-269)
destroys every stream whose `good` flag is down and unlinks it from
the used chain, then `server_flush` (lines 200-206) flushes each
remaining stream — a stream whose flush fails is marked bad but stays
in the chain until the next tick's reap.  `sendOk i` tells whether
stream `i`'s `send` succeeds.  `none` if some handler aborted the
process. -/
def server_tick (streams : List SStream) (evs : List TickEv) (sendOk : Nat → Bool) :
    Option TickResult :=
  match tickStep (((streams.zip evs).enum).map fun p => (p.1, p.2.1, p.2.2)) with
  | none => none
  | some l =>
    let events := (l.map fun p => p.2.1.map fun e => (p.1, e)).flatten
    let badL := l.filter fun p => !p.2.2.good
    let destroyEvents :=
      (badL.map fun p => (server_stream_destroy_events p.2.2.tbl).map fun e => (p.1, e)).flatten
    let destroyed := badL.map fun p => p.1
    let keptL := l.filter fun p => p.2.2.good
    let flushAttempts := keptL.filterMap fun p =>
      if p.2.2.out.ready = 0 then none
      else some (p.1, p.2.2.out.data.take p.2.2.out.ready)
    let survivors := keptL.map fun p =>
      let r := stream_flush ⟨p.2.2.good, p.2.2.out⟩ (sendOk p.1)
      (p.1, { p.2.2 with good := r.2.2.good, out := r.2.2.out })
    some ⟨events, destroyEvents, destroyed, flushAttempts, survivors⟩

/-- `client_message_shortcut` (lines 356-368): start, append, finish,
failing as soon as one step fails; generalised from the single
`xid_t` argument to an arbitrary payload byte string, with `send`
always succeeding. -/
def client_message_shortcut (s : OStream) (chan : Nat) (p : List Nat) : OpRes :=
  match stream_message_start s chan true with
  | .ret true s1 =>
    (match stream_message_append s1 p true with
     | .ret true s2 => stream_message_finish s2
     | .ret false s2 => .ret false s2
     | r => r)
  | .ret false s1 => .ret false s1
  | r => r

/-! ## Lemmas -/

theorem encodeU32_length (n : Nat) : (encodeU32 n).length = 4 := rfl

theorem decodeU32_encodeU32 (n : Nat) : decodeU32 (encodeU32 n) = n % 4294967296 := by
  simp only [decodeU32, encodeU32, List.getD_cons_zero, List.getD_cons_succ]
  omega

theorem toInt32_small (n : Nat) (h : n < 2147483648) : toInt32 n = n := by
  simp only [toInt32]
  rw [Nat.mod_eq_of_lt (by omega)]
  simp [h]

theorem writeBytes_prefix_length (d : List Nat) (pos : Nat) :
    (d.take pos ++ List.replicate (pos - d.length) 0).length = pos := by
  simp only [List.length_append, List.length_take, List.length_replicate]
  omega

theorem writeBytes_length (d : List Nat) (pos : Nat) (bs : List Nat) :
    (writeBytes d pos bs).length = pos + bs.length + (d.length - (pos + bs.length)) := by
  simp only [writeBytes, List.length_append, List.length_take, List.length_replicate,
    List.length_drop]
  omega

theorem writeBytes_at_end (d : List Nat) (bs : List Nat) :
    writeBytes d d.length bs = d ++ bs := by
  simp [writeBytes, List.drop_eq_nil_of_le]

theorem writeBytes_drop (d : List Nat) (pos : Nat) (bs : List Nat) :
    (writeBytes d pos bs).drop pos = bs ++ d.drop (pos + bs.length) := by
  have h : (writeBytes d pos bs) =
      (d.take pos ++ List.replicate (pos - d.length) 0) ++ (bs ++ d.drop (pos + bs.length)) := by
    simp [writeBytes]
  rw [h, List.drop_left' (writeBytes_prefix_length d pos)]

theorem writeBytes_take (d : List Nat) (pos : Nat) (bs : List Nat) (h : pos ≤ d.length) :
    (writeBytes d pos bs).take pos = d.take pos := by
  have h1 : (writeBytes d pos bs) =
      (d.take pos ++ List.replicate (pos - d.length) 0) ++ (bs ++ d.drop (pos + bs.length)) := by
    simp [writeBytes]
  rw [h1, List.take_left' (writeBytes_prefix_length d pos)]
  simp [Nat.sub_eq_zero_of_le h]

theorem writeBytes_getD_lt (d : List Nat) (pos : Nat) (bs : List Nat) (i : Nat)
    (h : i < pos) (h2 : pos ≤ d.length) :
    (writeBytes d pos bs).getD i 0 = d.getD i 0 := by
  have hp : pos - d.length = 0 := Nat.sub_eq_zero_of_le h2
  simp only [writeBytes, hp, List.replicate_zero, List.append_nil, List.getD_eq_getElem?_getD,
    List.append_assoc]
  rw [List.getElem?_append]
  simp only [List.length_take, min_eq_left h2]
  rw [if_pos h, List.getElem?_take, if_pos h]

theorem writeBytes_getD_mid (d : List Nat) (pos : Nat) (bs : List Nat) (i : Nat)
    (h1 : pos ≤ i) (h2 : i < pos + bs.length) :
    (writeBytes d pos bs).getD i 0 = bs.getD (i - pos) 0 := by
  have hw : (writeBytes d pos bs) =
      (d.take pos ++ List.replicate (pos - d.length) 0) ++ (bs ++ d.drop (pos + bs.length)) := by
    simp [writeBytes]
  simp only [hw, List.getD_eq_getElem?_getD]
  rw [List.getElem?_append_right (by rw [writeBytes_prefix_length]; exact h1),
    writeBytes_prefix_length]
  rw [List.getElem?_append]
  rw [if_pos (by omega)]

theorem writeBytes_getD_ge (d : List Nat) (pos : Nat) (bs : List Nat) (i : Nat)
    (h : pos + bs.length ≤ i) :
    (writeBytes d pos bs).getD i 0 = d.getD i 0 := by
  have hw : (writeBytes d pos bs) =
      (d.take pos ++ List.replicate (pos - d.length) 0) ++ (bs ++ d.drop (pos + bs.length)) := by
    simp [writeBytes]
  simp only [hw, List.getD_eq_getElem?_getD]
  rw [List.getElem?_append_right (by rw [writeBytes_prefix_length]; omega),
    writeBytes_prefix_length]
  rw [List.getElem?_append_right (by omega)]
  rw [List.getElem?_drop]
  have heq : pos + bs.length + (i - pos - bs.length) = i := by omega
  rw [heq]

theorem header_bytes_parse (size code chan : Nat) (payload : List Nat) :
    (encodeU32 size ++ code :: encodeU32 chan ++ payload).length
        = sizeofShubMessageHdr + payload.length ∧
    decodeU32 ((encodeU32 size ++ code :: encodeU32 chan ++ payload).take 4)
        = size % 4294967296 ∧
    (encodeU32 size ++ code :: encodeU32 chan ++ payload).getD 4 0 = code ∧
    decodeU32 (((encodeU32 size ++ code :: encodeU32 chan ++ payload).drop 5).take 4)
        = chan % 4294967296 ∧
    (encodeU32 size ++ code :: encodeU32 chan ++ payload).drop sizeofShubMessageHdr
        = payload := by
  refine ⟨?_, ?_, ?_, ?_, ?_⟩ <;>
    simp [encodeU32, decodeU32, sizeofShubMessageHdr] <;> omega

/-- First-sight behaviour of the client table: a fresh slot triggers
`onconnect` and is zero-initialised; an occupied slot is untouched. -/
theorem stream_get_client_fresh (tbl : ClientTable) (chan : Nat) (h : tbl chan = none) :
    stream_get_client tbl chan = (fun c => if c = chan then some 0 else tbl c, true) := by
  simp [stream_get_client, h]

theorem stream_get_client_occupied (tbl : ClientTable) (chan u : Nat) (h : tbl chan = some u) :
    stream_get_client tbl chan = (tbl, false) := by
  simp [stream_get_client, h]

/-- C4: `onConnect` is invoked exactly when a channel-id is seen for
the first time on a connection (the slot `tbl f.chan` unoccupied), and
at that moment the slot's user-state is zero-initialised
(`client->userdata = NULL`, line 403); a later frame on the same
channel while the slot is occupied does not invoke `onConnect` again
and (unless it is the disconnect code) does not reset the slot's
user-state. -/
theorem C4_onconnect_first_sight (tbl : ClientTable) (f : Frame)
    (hlt : f.chan < MAX_TRANSACTIONS) :
    (tbl f.chan = none →
       (stream_get_client tbl f.chan).2 = true ∧
       (stream_get_client tbl f.chan).1 f.chan = some 0 ∧
       ∀ evs tbl1, handleFrame tbl f = some (evs, tbl1) → Event.connect f.chan ∈ evs) ∧
    (∀ u, tbl f.chan = some u →
       (stream_get_client tbl f.chan).2 = false ∧
       (stream_get_client tbl f.chan).1 = tbl ∧
       ∀ evs tbl1, handleFrame tbl f = some (evs, tbl1) →
         Event.connect f.chan ∉ evs ∧ (f.code ≠ MSG_DISCONNECT → tbl1 f.chan = some u)) := by
  constructor
  · intro h
    rw [stream_get_client_fresh tbl f.chan h]
    refine ⟨rfl, by simp, ?_⟩
    intro evs tbl1 hh
    rw [handleFrame, if_pos hlt, stream_get_client_fresh tbl f.chan h] at hh
    by_cases hc : f.code = MSG_DISCONNECT <;> simp [hc] at hh <;> simp [← hh.1]
  · intro u h
    rw [stream_get_client_occupied tbl f.chan u h]
    refine ⟨rfl, rfl, ?_⟩
    intro evs tbl1 hh
    rw [handleFrame, if_pos hlt, stream_get_client_occupied tbl f.chan u h] at hh
    by_cases hc : f.code = MSG_DISCONNECT <;> simp [hc] at hh
    · simp [← hh.1, hc]
    · exact ⟨by simp [← hh.1], fun _ => by rw [← hh.2]; exact h⟩

/-- C4 witness: on a fresh table, a frame on channel 3 raises
`onConnect` and zero-initialises the slot; on a table where channel 3
is occupied with user-state 7, the same frame raises no `onConnect`
and keeps the user-state. -/
theorem C4_witness :
    (3 < MAX_TRANSACTIONS ∧ emptyClients 3 = none ∧
       (stream_get_client emptyClients 3).2 = true ∧
       (stream_get_client emptyClients 3).1 3 = some 0) ∧
    ((fun c => if c = 3 then some 7 else none) 3 = some (7 : Nat) ∧
       (stream_get_client (fun c => if c = 3 then some 7 else none) 3).2 = false) := by
  have h1 := (C4_onconnect_first_sight emptyClients ⟨2, 5, 3, [1, 1]⟩ (by decide)).1
    (by rfl)
  have h2 := (C4_onconnect_first_sight (fun c => if c = 3 then some 7 else none)
    ⟨2, 5, 3, [1, 1]⟩ (by decide)).2 7 (by decide)
  exact ⟨⟨by decide, rfl, h1.1, h1.2.1⟩, ⟨by decide, h2.1⟩⟩

/-- C5: when the reserved disconnect code arrives on an occupied
channel, `ondisconnect` is invoked for that channel and the slot is
cleared afterwards (`client->stream = NULL`, line 454); a frame
carrying the disconnect code is never delivered to `onmessage`
(lines 446-457 branch on the code); and when a connection dies,
`server_stream_destroy` (lines 231-244) invokes `ondisconnect` for
every occupied channel before the stream's resources are freed. -/
theorem C5_disconnect_handling (tbl : ClientTable) (chan u size : Nat) (payload : List Nat)
    (hlt : chan < MAX_TRANSACTIONS) :
    (tbl chan = some u →
       handleFrame tbl ⟨size, MSG_DISCONNECT, chan, payload⟩ =
         some ([Event.disconnect chan], clearClient tbl chan) ∧
       clearClient tbl chan chan = none) ∧
    (∀ evs tbl1 c2 sz pl,
       handleFrame tbl ⟨size, MSG_DISCONNECT, chan, payload⟩ = some (evs, tbl1) →
       Event.message c2 sz pl ∉ evs) ∧
    (tbl chan = some u → Event.disconnect chan ∈ server_stream_destroy_events tbl) := by
  refine ⟨?_, ?_, ?_⟩
  · intro h
    rw [handleFrame, if_pos hlt, stream_get_client_occupied tbl chan u h]
    exact ⟨by simp, by simp [clearClient]⟩
  · intro evs tbl1 c2 sz pl hh
    rw [handleFrame, if_pos hlt] at hh
    rcases hsl : tbl chan with _ | u2
    · rw [stream_get_client_fresh tbl chan hsl] at hh
      simp at hh
      simp [← hh.1]
    · rw [stream_get_client_occupied tbl chan u2 hsl] at hh
      simp at hh
      simp [← hh.1]
  · intro h
    rw [server_stream_destroy_events]
    exact List.mem_filterMap.mpr ⟨chan, List.mem_range.mpr hlt, by simp [h]⟩

/-- C5 witness: on a table where channel 2 is occupied, a disconnect
frame emits exactly `ondisconnect(2)` and clears the slot, and
destroying the stream also emits `ondisconnect(2)`. -/
theorem C5_witness :
    ((fun c => if c = 2 then some 9 else none) 2 = some (9 : Nat) ∧
     handleFrame (fun c => if c = 2 then some 9 else none) ⟨0, MSG_DISCONNECT, 2, []⟩ =
       some ([Event.disconnect 2], clearClient (fun c => if c = 2 then some 9 else none) 2) ∧
     clearClient (fun c => if c = 2 then some 9 else none) 2 2 = none) ∧
    Event.disconnect 2 ∈
      server_stream_destroy_events (fun c => if c = 2 then some 9 else none) := by
  have h := C5_disconnect_handling (fun c => if c = 2 then some 9 else none) 2 9 0 []
    (by decide)
  exact ⟨⟨by decide, (h.1 (by decide)).1, (h.1 (by decide)).2⟩, h.2.2 (by decide)⟩

/-- C6 (amended): an inbound complete frame whose channel-id is `≥`
the channel-table maximum does NOT mark the connection bad — it hits
`assert(chan < MAX_TRANSACTIONS)` in `stream_get_client` (line 396),
which aborts the whole process before the channel table is read or
written; the frame is not dispatched (no event is emitted for it).
The spec's "out-of-range channel-ids mark the connection bad" does
not match the code. -/
theorem C6_out_of_range_chan_aborts (tbl : ClientTable) (fuel code chan : Nat)
    (payload : List Nat)
    (hchan : MAX_TRANSACTIONS ≤ chan) (hchan2 : chan < 4294967296)
    (hlen : payload.length < 4294967296)
    (hsmall : sizeofShubMessageHdr + payload.length < 2147483648) :
    handleFrame tbl ⟨payload.length, code, chan, payload⟩ = none ∧
    processLoop (fuel + 1) tbl (encodeU32 payload.length ++ code :: encodeU32 chan ++ payload)
      (sizeofShubMessageHdr + payload.length) = .crash [] := by
  have hhf : ∀ pl2, handleFrame tbl ⟨payload.length, code, chan, pl2⟩ = none := by
    intro pl2
    rw [handleFrame, if_neg (not_lt.mpr hchan)]
  obtain ⟨h1, h2, h3, h4, h5⟩ := header_bytes_parse payload.length code chan payload
  refine ⟨hhf payload, ?_⟩
  rw [processLoop]
  rw [if_neg (by simp [sizeofShubMessageHdr]), if_neg (by omega)]
  simp only [h1, Nat.sub_self, List.drop_zero, h2, h3, h4]
  rw [Nat.mod_eq_of_lt hlen, Nat.mod_eq_of_lt hchan2,
    toInt32_small _ hsmall, if_pos (le_refl _), hhf]

/-- C6 witness: a complete frame with `size = 0` on channel
`MAX_TRANSACTIONS` itself makes the processing loop abort
(`crash`). -/
theorem C6_witness :
    MAX_TRANSACTIONS ≤ MAX_TRANSACTIONS ∧ MAX_TRANSACTIONS < 4294967296 ∧
    processLoop 1 emptyClients
      (encodeU32 0 ++ 5 :: encodeU32 MAX_TRANSACTIONS ++ []) sizeofShubMessageHdr
      = .crash [] := by
  refine ⟨le_refl _, by decide, ?_⟩
  have h := (C6_out_of_range_chan_aborts emptyClients 0 5 MAX_TRANSACTIONS []
    (le_refl _) (by decide) (by decide) (by decide)).2
  simpa using h

/-- C6 counterexample: the claim says a frame with an out-of-range
channel-id leaves the connection in a `good = false` state with the
frame undispatched; on the code, `server_stream_handle` never returns
at all on such input — the `assert` aborts the process, so there is
no post-state in which the connection is marked bad.  Concretely, a
9-byte frame with `chan = MAX_TRANSACTIONS` makes the handler abort
(`none`), not return a bad-marked stream. -/
theorem C6_counterexample_assert_not_bad :
    server_stream_handle ⟨true, emptyClients, [], freshOut⟩
      (encodeU32 0 ++ 5 :: encodeU32 MAX_TRANSACTIONS ++ []) = none := by
  rfl

/-- C1 counterexample: the claim's "a frame is dispatched if and only
if the buffered bytes contain a complete header plus `size` payload
bytes" is false.  On the 9-byte input whose header declares
`size = 0xFFFFFFFF` (no payload byte buffered at all), the `int`
conversion in `int header_and_data = sizeof(ShubMessageHdr) + msg->size`
wraps `9 + 4294967295` to `8`, the test `header_and_data <= toprocess`
(8 ≤ 9) passes, and the frame IS dispatched to the upper layer even
though its payload is absent; the loop then returns normally with one
stray byte. -/
theorem C1_counterexample_overflow_dispatch :
    (processLoop 10 emptyClients [255, 255, 255, 255, 5, 0, 0, 0, 0] 9).evs
        = [Event.connect 0, Event.message 0 4294967295 []] ∧
    (processLoop 10 emptyClients [255, 255, 255, 255, 5, 0, 0, 0, 0] 9).isOkDone = true ∧
    [255, 255, 255, 255, 5, 0, 0, 0, 0].length <
      sizeofShubMessageHdr + 4294967295 := by
  refine ⟨by rfl, by rfl, by decide⟩

/-- C2: the claim (and the code's own intent, the oversize check with
its diagnostic at lines 461-468) says an inbound frame whose
header-plus-payload length exceeds the input buffer size sets
`good = false` and is not dispatched.  The `int` truncation in
`int header_and_data = sizeof(ShubMessageHdr) + msg->size` bypasses
that check: a header declaring `size = 0xFFFFFFFE` (payload vastly
exceeding `BUFFER_SIZE`) wraps `header_and_data` to `7`, so the code
dispatches a garbage frame to `onmessage` and leaves the connection
good instead of marking it bad.  This theorem evaluates the read path
at that failing input. -/
theorem C2_overflow_bypasses_oversize_check :
    (processLoop 10 emptyClients [254, 255, 255, 255, 2, 3, 0, 0, 0] 9).evs
        = [Event.connect 3, Event.message 3 4294967294 []] ∧
    (processLoop 10 emptyClients [254, 255, 255, 255, 2, 3, 0, 0, 0] 9).isOkDone = true ∧
    BUFFER_SIZE < sizeofShubMessageHdr + 4294967294 := by
  refine ⟨by rfl, by rfl, by decide⟩

theorem decode_take_encode (n : Nat) (rest : List Nat) :
    decodeU32 ((encodeU32 n ++ rest).take 4) = n % 4294967296 := by
  rw [List.take_left' (encodeU32_length n), decodeU32_encodeU32]

theorem drop4_encode (n : Nat) (rest : List Nat) :
    (encodeU32 n ++ rest).drop 4 = rest :=
  List.drop_left' (encodeU32_length n)

/-- C8 (amended): every reply frame built by the transport carries
the code byte `'r'` (0x72) — `stream_message_start` hard-codes
`msg->code = 'r'` at line 290 and no other write touches the code
byte — not the `0xFF` the claim states; error information can only
travel in the payload.  Building and committing a reply (the
`client_message_shortcut` sequence start, append, finish) succeeds on
an empty output buffer, leaves `good` untouched (the connection stays
open), and the committed frame is byte-exactly
`{size = |p|, code = 'r', chan}` followed by the payload. -/
theorem C8_reply_code_is_r (s : OStream) (chan : Nat) (p : List Nat)
    (hcur : s.out.curOff = none) (hready : s.out.ready = 0) (hdata : s.out.data = [])
    (hfit : sizeofShubMessageHdr + p.length ≤ BUFFER_SIZE) :
    client_message_shortcut s chan p =
      .ret true ⟨s.good, ⟨encodeU32 p.length ++ replyCode :: (encodeU32 chan ++ p),
                          p.length + sizeofShubMessageHdr, none⟩⟩ ∧
    (encodeU32 p.length ++ replyCode :: (encodeU32 chan ++ p)).getD 4 0 = replyCode ∧
    replyCode ≠ 255 := by
  have hlen : p.length ≤ 1015 := by
    have := hfit
    simp [sizeofShubMessageHdr, BUFFER_SIZE] at this
    omega
  have hstart : stream_message_start s chan true =
      .ret true ⟨s.good, ⟨encodeU32 0 ++ replyCode :: encodeU32 chan, 0, some 0⟩⟩ := by
    simp only [stream_message_start, hcur, hready, hdata]
    norm_num [sizeofShubMessageHdr, BUFFER_SIZE, writeBytes, hready, hdata]
  have happend : stream_message_append
      ⟨s.good, ⟨encodeU32 0 ++ replyCode :: encodeU32 chan, 0, some 0⟩⟩ p true =
      .ret true ⟨s.good, ⟨encodeU32 p.length ++ replyCode :: (encodeU32 chan ++ p),
                          0, some 0⟩⟩ := by
    simp only [stream_message_append, List.drop_zero, decode_take_encode, Nat.zero_mod]
    rw [toInt32_small _ (by simp [sizeofShubMessageHdr]; omega)]
    rw [if_neg (by simp [sizeofShubMessageHdr, BUFFER_SIZE]; omega)]
    rw [if_neg (by simp [sizeofShubMessageHdr, BUFFER_SIZE]; omega)]
    simp only [Option.getD_some, List.drop_zero, decode_take_encode, Nat.zero_mod]
    rw [if_neg (by simp [sizeofShubMessageHdr, BUFFER_SIZE]; omega)]
    have h9 : (encodeU32 0 ++ replyCode :: encodeU32 chan).length = 9 := by
      simp [encodeU32]
    have hwr1 : writeBytes (encodeU32 0 ++ replyCode :: encodeU32 chan)
        (0 + sizeofShubMessageHdr + 0) p =
        (encodeU32 0 ++ replyCode :: encodeU32 chan) ++ p := by
      have : 0 + sizeofShubMessageHdr + 0 = (encodeU32 0 ++ replyCode :: encodeU32 chan).length := by
        simp [h9, sizeofShubMessageHdr]
      rw [this, writeBytes_at_end]
    rw [hwr1]
    have hwr2 : writeBytes ((encodeU32 0 ++ replyCode :: encodeU32 chan) ++ p) 0
        (encodeU32 (0 + p.length)) =
        encodeU32 p.length ++ replyCode :: (encodeU32 chan ++ p) := by
      simp only [writeBytes, List.take_zero, List.length_append, Nat.zero_sub,
        List.replicate_zero, List.nil_append, List.append_nil, Nat.zero_add,
        encodeU32_length, Nat.add_comm]
      rw [List.append_assoc, List.cons_append]
      rw [drop4_encode]
      simp
    rw [hwr2]
  have hfinish : stream_message_finish
      ⟨s.good, ⟨encodeU32 p.length ++ replyCode :: (encodeU32 chan ++ p), 0, some 0⟩⟩ =
      .ret true ⟨s.good, ⟨encodeU32 p.length ++ replyCode :: (encodeU32 chan ++ p),
                          p.length + sizeofShubMessageHdr, none⟩⟩ := by
    simp only [stream_message_finish, List.drop_zero, decode_take_encode]
    rw [Nat.mod_eq_of_lt (by omega)]
    rw [if_neg (by simp [sizeofShubMessageHdr, BUFFER_SIZE]; omega)]
    simp [Nat.add_comm]
  refine ⟨?_, ?_, by decide⟩
  · simp only [client_message_shortcut, hstart, happend, hfinish]
  · rw [List.getD_eq_getElem?_getD, List.getElem?_append_right (by simp [encodeU32])]
    simp [encodeU32]

/-- C8 witness: building a one-byte error-kind reply on channel 42
from a fresh stream commits the frame
`{size = 1, code = 'r', chan = 42}` with payload `[3]`, and the
stream stays good. -/
theorem C8_witness :
    client_message_shortcut ⟨true, freshOut⟩ 42 [3] =
      .ret true ⟨true, ⟨encodeU32 1 ++ replyCode :: (encodeU32 42 ++ [3]),
                        1 + sizeofShubMessageHdr, none⟩⟩ ∧
    (encodeU32 1 ++ replyCode :: (encodeU32 42 ++ [3])).getD 4 0 = replyCode := by
  have h := C8_reply_code_is_r ⟨true, freshOut⟩ 42 [3] rfl rfl rfl (by decide)
  exact ⟨h.1, h.2.1⟩

/-- C8 counterexample: the claim says the error reply's code byte is
`0xFF`; the only way the transport ever sets a reply's code byte is
line 290 (`msg->code = 'r'`), so the frame built for any reply —
error or not — carries `0x72`, never `0xFF`.  Concretely, after a
successful `stream_message_start` on a fresh stream, the in-progress
message's code byte (offset 4 of the header) is 114 (`'r'`), not
255. -/
theorem C8_counterexample_code_not_ff :
    (match stream_message_start ⟨true, freshOut⟩ 42 true with
     | .ret _ s1 => s1.out.data.getD (s1.out.curOff.getD 0 + 4) 0
     | _ => 0) = 114 ∧ (114 : Nat) ≠ 255 := by
  exact ⟨by rfl, by decide⟩

/-- C9: misuse of the reply builder is rejected atomically:
`stream_message_start` while a message is unfinished (line 274), and
`stream_message_append` / `stream_message_finish` when no message has
been started (lines 301, 331), each return `false`, mark the stream
bad, and leave the whole output buffer — in particular the committed
byte count `output.ready` — unchanged. -/
theorem C9_builder_misuse_rejected (s : OStream) (chan : Nat) (p : List Nat) (k : Bool) :
    (∀ off, s.out.curOff = some off →
       stream_message_start s chan k = .ret false ⟨false, s.out⟩) ∧
    (s.out.curOff = none →
       stream_message_append s p k = .ret false ⟨false, s.out⟩ ∧
       stream_message_finish s = .ret false ⟨false, s.out⟩) := by
  constructor
  · intro off h
    simp [stream_message_start, h]
  · intro h
    constructor
    · simp [stream_message_append, h]
    · simp [stream_message_finish, h]

/-- C9 witness: starting on a stream with an unfinished message, and
appending or finishing on a stream with no message, each fail with
the buffer untouched. -/
theorem C9_witness :
    (⟨true, ⟨[], 0, some 0⟩⟩ : OStream).out.curOff = some 0 ∧
    stream_message_start ⟨true, ⟨[], 0, some 0⟩⟩ 5 true = .ret false ⟨false, ⟨[], 0, some 0⟩⟩ ∧
    (⟨true, ⟨[7], 1, none⟩⟩ : OStream).out.curOff = none ∧
    stream_message_append ⟨true, ⟨[7], 1, none⟩⟩ [1] true = .ret false ⟨false, ⟨[7], 1, none⟩⟩ ∧
    stream_message_finish ⟨true, ⟨[7], 1, none⟩⟩ = .ret false ⟨false, ⟨[7], 1, none⟩⟩ := by
  refine ⟨rfl, ?_, rfl, ?_, ?_⟩
  · exact (C9_builder_misuse_rejected ⟨true, ⟨[], 0, some 0⟩⟩ 5 [1] true).1 0 rfl
  · exact ((C9_builder_misuse_rejected ⟨true, ⟨[7], 1, none⟩⟩ 5 [1] true).2 rfl).1
  · exact ((C9_builder_misuse_rejected ⟨true, ⟨[7], 1, none⟩⟩ 5 [1] true).2 rfl).2

theorem msgSize_some (o : OutBuf) (off : Nat) (h : o.curOff = some off) :
    msgSize o = decodeU32 ((o.data.drop off).take 4) := by
  simp [msgSize, h]

theorem stream_flush_eq_zero (s : OStream) (k : Bool) (h0 : s.out.ready = 0) :
    stream_flush s k = ([], true, s) := by
  unfold stream_flush
  rw [if_pos h0]

theorem stream_flush_eq_fail (s : OStream) (h0 : ¬s.out.ready = 0) :
    stream_flush s false = ([], false, ⟨false, s.out⟩) := by
  unfold stream_flush
  rw [if_neg h0]
  rfl

theorem stream_flush_eq_none (s : OStream) (h0 : ¬s.out.ready = 0)
    (hc : s.out.curOff = none) :
    stream_flush s true = (s.out.data.take s.out.ready, true, ⟨s.good, ⟨[], 0, none⟩⟩) := by
  unfold stream_flush
  rw [if_neg h0, hc]
  rfl

theorem stream_flush_eq_some (s : OStream) (off : Nat) (h0 : ¬s.out.ready = 0)
    (hc : s.out.curOff = some off) :
    stream_flush s true = (s.out.data.take s.out.ready, true,
      ⟨s.good, ⟨(s.out.data.drop off).take
          (sizeofShubMessageHdr + decodeU32 ((s.out.data.drop off).take 4)),
        0, some 0⟩⟩) := by
  unfold stream_flush
  rw [if_neg h0, hc]
  rfl

/-- A successful `stream_flush` hands exactly the committed prefix to
`send`, leaves `good` as it was, resets `ready` to `0`, and moves an
unfinished message intact to the start of the buffer. -/
theorem stream_flush_spec (s : OStream) (k : Bool) (hwf : OutWF s.out)
    (h : (stream_flush s k).2.1 = true) :
    OutWF (stream_flush s k).2.2.out ∧
    (stream_flush s k).2.2.good = s.good ∧
    (stream_flush s k).1 = s.out.data.take s.out.ready ∧
    (stream_flush s k).2.2.out.ready = 0 ∧
    (s.out.curOff = none → (stream_flush s k).2.2.out.curOff = none) ∧
    (∀ off, s.out.curOff = some off →
       (stream_flush s k).2.2.out.curOff = some 0 ∧
       msgSize (stream_flush s k).2.2.out = msgSize s.out ∧
       (stream_flush s k).2.2.out.data = s.out.data.drop off) := by
  by_cases h0 : s.out.ready = 0
  · rw [stream_flush_eq_zero s k h0]
    refine ⟨hwf, rfl, by rw [h0, List.take_zero], h0, fun hx => hx, ?_⟩
    intro off hoff
    have hwfs := hwf
    simp only [OutWF, hoff] at hwfs
    have hoff0 : off = 0 := by omega
    refine ⟨by rw [hoff, hoff0], rfl, by rw [hoff0, List.drop_zero]⟩
  · cases k with
    | false =>
      rw [stream_flush_eq_fail s h0] at h
      cases h
    | true =>
      rcases hc : s.out.curOff with _ | off
      · rw [stream_flush_eq_none s h0 hc]
        refine ⟨⟨rfl, by simp [BUFFER_SIZE]⟩, rfl, rfl, rfl, fun _ => rfl, ?_⟩
        intro off hoff
        cases hoff
      · have hwfs := hwf
        simp only [OutWF, hc] at hwfs
        obtain ⟨hoffr, hlen, hle⟩ := hwfs
        have hms : msgSize s.out = decodeU32 ((s.out.data.drop off).take 4) :=
          msgSize_some s.out off hc
        rw [stream_flush_eq_some s off h0 hc]
        have htake : (s.out.data.drop off).take
            (sizeofShubMessageHdr + decodeU32 ((s.out.data.drop off).take 4)) =
            s.out.data.drop off := by
          apply List.take_of_length_le
          rw [List.length_drop, ← hms]
          omega
        have hms2 : msgSize (⟨(s.out.data.drop off).take
            (sizeofShubMessageHdr + decodeU32 ((s.out.data.drop off).take 4)),
            0, some 0⟩ : OutBuf) = msgSize s.out := by
          simp only [msgSize]
          rw [htake, List.drop_zero, ← hms]
          rfl
        refine ⟨?_, rfl, rfl, rfl, ?_, ?_⟩
        · simp only [OutWF]
          refine ⟨by trivial, ?_, ?_⟩
          · rw [hms2, htake, List.length_drop]
            omega
          · rw [htake, List.length_drop]
            omega
        · intro hx
          cases hx
        · intro off2 hoff2
          cases hoff2
          exact ⟨rfl, hms2, by rw [htake]⟩

theorem start_header_shape (chan : Nat) :
    encodeU32 0 ++ [replyCode] ++ encodeU32 chan =
      encodeU32 0 ++ (replyCode :: encodeU32 chan) := by
  simp

/-- A successful `stream_message_start` preserves well-formedness and
`good`, commits nothing new (`ready` can only shrink to `0` via the
internal flush), and produces an empty in-progress message sitting at
the end of the committed region. -/
theorem stream_message_start_spec (s : OStream) (chan : Nat) (k : Bool) (hwf : OutWF s.out)
    (s1 : OStream) (h : stream_message_start s chan k = .ret true s1) :
    OutWF s1.out ∧ s1.good = s.good ∧ s1.out.curOff = some s1.out.ready ∧
    msgSize s1.out = 0 ∧ s1.out.ready ≤ s.out.ready ∧
    s1.out.ready + sizeofShubMessageHdr + msgSize s1.out ≤ BUFFER_SIZE := by
  rcases hc : s.out.curOff with _ | off
  swap
  · rw [stream_message_start, hc] at h
    cases h
  have hlen : s.out.data.length = s.out.ready := by
    have hthis := hwf
    simp only [OutWF, hc] at hthis
    exact hthis.1
  rw [stream_message_start, hc] at h
  by_cases hfl : BUFFER_SIZE - s.out.ready < sizeofShubMessageHdr
  · rw [if_pos hfl] at h
    rcases hr : stream_flush s k with ⟨sent, ok, sf⟩
    rw [hr] at h
    cases ok with
    | false => cases h
    | true =>
      have hspec := stream_flush_spec s k hwf (by rw [hr])
      rw [hr] at hspec
      have hwf1 : OutWF sf.out := hspec.1
      have hgood1 : sf.good = s.good := hspec.2.1
      have hready1 : sf.out.ready = 0 := hspec.2.2.2.1
      have hcur1 : sf.out.curOff = none := hspec.2.2.2.2.1 hc
      have hdlen : sf.out.data.length = 0 := by
        have hthis := hwf1
        simp only [OutWF, hcur1] at hthis
        rw [hthis.1, hready1]
      have hdnil : sf.out.data = [] := List.length_eq_zero.mp hdlen
      simp only [] at h
      by_cases hub : sf.out.ready + sizeofShubMessageHdr > BUFFER_SIZE
      · rw [if_pos hub] at h
        cases h
      · rw [if_neg hub] at h
        cases h
        have hval : writeBytes sf.out.data 0
            (encodeU32 0 ++ [replyCode] ++ encodeU32 chan) =
            encodeU32 0 ++ (replyCode :: encodeU32 chan) := by
          rw [start_header_shape, hdnil]
          simp [writeBytes]
        refine ⟨?_, hgood1, rfl, ?_, ?_, ?_⟩
        · simp only [hready1]
          rw [hval]
          simp only [OutWF, msgSize, List.drop_zero, decode_take_encode, Nat.zero_mod]
          simp [encodeU32, sizeofShubMessageHdr, BUFFER_SIZE]
        · simp only [msgSize, hready1, List.drop_zero]
          rw [hval]
          simp only [decode_take_encode, Nat.zero_mod]
        · simp [hready1]
        · simp only [msgSize, hready1, List.drop_zero]
          rw [hval]
          simp only [decode_take_encode, Nat.zero_mod]
          simp [sizeofShubMessageHdr, BUFFER_SIZE]
  · rw [if_neg hfl] at h
    simp only [] at h
    by_cases hub : s.out.ready + sizeofShubMessageHdr > BUFFER_SIZE
    · rw [if_pos hub] at h
      cases h
    · rw [if_neg hub] at h
      cases h
      have hwr : writeBytes s.out.data s.out.ready
          (encodeU32 0 ++ [replyCode] ++ encodeU32 chan) =
          s.out.data ++ (encodeU32 0 ++ (replyCode :: encodeU32 chan)) := by
        rw [start_header_shape, ← hlen, writeBytes_at_end]
      have hdrop : (s.out.data ++ (encodeU32 0 ++ (replyCode :: encodeU32 chan))).drop
          s.out.ready = encodeU32 0 ++ (replyCode :: encodeU32 chan) :=
        List.drop_left' hlen
      refine ⟨?_, rfl, rfl, ?_, le_refl _, ?_⟩
      · simp only [OutWF, msgSize, hwr, hdrop, decode_take_encode, Nat.zero_mod]
        simp only [List.length_append, hlen]
        refine ⟨by trivial, by simp [encodeU32, sizeofShubMessageHdr], ?_⟩
        simp only [encodeU32, sizeofShubMessageHdr] at *
        simp only [List.length_cons, List.length_nil]
        omega
      · simp only [msgSize, hwr, hdrop, decode_take_encode, Nat.zero_mod]
      · simp only [msgSize, hwr, hdrop, decode_take_encode, Nat.zero_mod]
        simp only [sizeofShubMessageHdr] at *
        omega

/-- The buffer produced by the write phase of `stream_message_append`
(the `memcpy` of the payload and the in-place `msg->size += len`) is
well formed and its size field has grown by exactly the payload
length. -/
theorem append_post_spec (dat : List Nat) (r off1 : Nat) (p : List Nat)
    (hoff : off1 = r)
    (hlen : dat.length = r + sizeofShubMessageHdr + decodeU32 ((dat.drop off1).take 4))
    (hub : off1 + sizeofShubMessageHdr + decodeU32 ((dat.drop off1).take 4) + p.length
            ≤ BUFFER_SIZE) :
    OutWF ⟨writeBytes
             (writeBytes dat
               (off1 + sizeofShubMessageHdr + decodeU32 ((dat.drop off1).take 4)) p)
             off1 (encodeU32 (decodeU32 ((dat.drop off1).take 4) + p.length)),
           r, some off1⟩ ∧
    msgSize ⟨writeBytes
               (writeBytes dat
                 (off1 + sizeofShubMessageHdr + decodeU32 ((dat.drop off1).take 4)) p)
               off1 (encodeU32 (decodeU32 ((dat.drop off1).take 4) + p.length)),
             r, some off1⟩ = decodeU32 ((dat.drop off1).take 4) + p.length := by
  subst hoff
  set sz := decodeU32 ((dat.drop off1).take 4) with hsz
  have hszlt : sz + p.length < 4294967296 := by
    have hb : BUFFER_SIZE = 1024 := rfl
    omega
  have hd1 : writeBytes dat (off1 + sizeofShubMessageHdr + sz) p = dat ++ p := by
    have hp : off1 + sizeofShubMessageHdr + sz = dat.length := by omega
    rw [hp, writeBytes_at_end]
  rw [hd1]
  have hdrop2 : (writeBytes (dat ++ p) off1 (encodeU32 (sz + p.length))).drop off1 =
      encodeU32 (sz + p.length) ++ (dat ++ p).drop (off1 + 4) := by
    rw [writeBytes_drop, encodeU32_length]
  have hms : msgSize ⟨writeBytes (dat ++ p) off1 (encodeU32 (sz + p.length)),
      off1, some off1⟩ = sz + p.length := by
    simp only [msgSize, hdrop2, decode_take_encode]
    exact Nat.mod_eq_of_lt hszlt
  refine ⟨?_, hms⟩
  simp only [OutWF]
  refine ⟨by trivial, ?_, ?_⟩
  · rw [hms, writeBytes_length, encodeU32_length, List.length_append]
    have h9 : sizeofShubMessageHdr = 9 := rfl
    omega
  · rw [writeBytes_length, encodeU32_length, List.length_append]
    have h9 : sizeofShubMessageHdr = 9 := rfl
    have hb : BUFFER_SIZE = 1024 := rfl
    omega

/-- A successful `stream_message_append` preserves well-formedness
and `good`, never grows the committed region, and extends the size
field of the in-progress message by exactly the payload length. -/
theorem stream_message_append_spec (s : OStream) (p : List Nat) (k : Bool) (hwf : OutWF s.out)
    (s2 : OStream) (h : stream_message_append s p k = .ret true s2) :
    OutWF s2.out ∧ s2.good = s.good ∧ s2.out.curOff = some s2.out.ready ∧
    msgSize s2.out = msgSize s.out + p.length ∧ s2.out.ready ≤ s.out.ready := by
  rcases hc : s.out.curOff with _ | off
  · rw [stream_message_append, hc] at h
    cases h
  have hwfs := hwf
  simp only [OutWF, hc] at hwfs
  obtain ⟨hoffr, hlen, hle⟩ := hwfs
  have hmseq : msgSize s.out = decodeU32 ((s.out.data.drop off).take 4) :=
    msgSize_some s.out off hc
  rw [stream_message_append, hc] at h
  simp only [] at h
  by_cases hg1 : toInt32 (decodeU32 ((s.out.data.drop off).take 4) + sizeofShubMessageHdr
      + p.length) > (BUFFER_SIZE : Int)
  · rw [if_pos hg1] at h
    cases h
  rw [if_neg hg1] at h
  by_cases hg2 : (s.out.ready : Int) + toInt32 (decodeU32 ((s.out.data.drop off).take 4)
      + sizeofShubMessageHdr + p.length) > (BUFFER_SIZE : Int)
  · rw [if_pos hg2] at h
    rcases hr : stream_flush s k with ⟨sent, ok, sf⟩
    rw [hr] at h
    cases ok with
    | false => cases h
    | true =>
      have hspec := stream_flush_spec s k hwf (by rw [hr])
      rw [hr] at hspec
      have hwf1 : OutWF sf.out := hspec.1
      have hgood1 : sf.good = s.good := hspec.2.1
      have hready1 : sf.out.ready = 0 := hspec.2.2.2.1
      have hsome := hspec.2.2.2.2.2 off hc
      have hcur1 : sf.out.curOff = some 0 := hsome.1
      have hms1 : msgSize sf.out = msgSize s.out := hsome.2.1
      have hwfs1 := hwf1
      simp only [OutWF, hcur1] at hwfs1
      obtain ⟨hoffr1, hlen1, hle1⟩ := hwfs1
      have hms1eq : msgSize sf.out = decodeU32 ((sf.out.data.drop 0).take 4) :=
        msgSize_some sf.out 0 hcur1
      simp only [hcur1, Option.getD_some] at h
      by_cases hub : 0 + sizeofShubMessageHdr + decodeU32 ((sf.out.data.drop 0).take 4)
          + p.length > BUFFER_SIZE
      · rw [if_pos hub] at h
        cases h
      · rw [if_neg hub] at h
        cases h
        have hpost := append_post_spec sf.out.data sf.out.ready 0 p
          (by omega)
          (by rw [← hms1eq]; exact hlen1)
          (by rw [← hms1eq]; omega)
        rw [← hms1eq] at hpost
        refine ⟨?_, hgood1, ?_, ?_, ?_⟩
        · have hx := hpost.1
          rw [hms1eq] at hx
          convert hx using 3
        · show some 0 = some sf.out.ready
          rw [hready1]
        · have hx := hpost.2
          rw [hms1eq] at hx
          have hxx : msgSize
              ⟨writeBytes
                 (writeBytes sf.out.data
                   (0 + sizeofShubMessageHdr + decodeU32 ((sf.out.data.drop 0).take 4)) p)
                 0 (encodeU32 (decodeU32 ((sf.out.data.drop 0).take 4) + p.length)),
               sf.out.ready, some 0⟩ =
              decodeU32 ((sf.out.data.drop 0).take 4) + p.length := by
            convert hx using 3
          rw [hxx, ← hms1eq, hms1]
        · rw [hready1]
          omega
  · rw [if_neg hg2] at h
    simp only [hc, Option.getD_some] at h
    by_cases hub : off + sizeofShubMessageHdr + decodeU32 ((s.out.data.drop off).take 4)
        + p.length > BUFFER_SIZE
    · rw [if_pos hub] at h
      cases h
    · rw [if_neg hub] at h
      cases h
      have hpost := append_post_spec s.out.data s.out.ready off p
        hoffr (by omega) (by omega)
      refine ⟨hpost.1, rfl, ?_, ?_, le_refl _⟩
      · show some off = some s.out.ready
        rw [hoffr]
      · rw [hpost.2, hmseq]

/-- A successful `stream_message_finish` commits exactly
`msg->size + sizeof(ShubMessageHdr)` bytes — the header plus the
accumulated payload of the in-progress message — clears the message
cursor, preserves `good` and the buffer content, and its `assert`
cannot fire from a well-formed state. -/
theorem stream_message_finish_spec (s : OStream) (hwf : OutWF s.out) (off : Nat)
    (hc : s.out.curOff = some off) :
    stream_message_finish s =
      .ret true ⟨s.good, ⟨s.out.data,
        s.out.ready + msgSize s.out + sizeofShubMessageHdr, none⟩⟩ ∧
    OutWF (⟨s.out.data, s.out.ready + msgSize s.out + sizeofShubMessageHdr, none⟩ : OutBuf) ∧
    s.out.ready + msgSize s.out + sizeofShubMessageHdr ≤ BUFFER_SIZE := by
  have hwfs := hwf
  simp only [OutWF, hc] at hwfs
  obtain ⟨hoffr, hlen, hle⟩ := hwfs
  have hmseq := msgSize_some s.out off hc
  have h9 : sizeofShubMessageHdr = 9 := rfl
  have hlen2 : s.out.data.length =
      s.out.ready + sizeofShubMessageHdr + decodeU32 ((s.out.data.drop off).take 4) := by
    rw [← hmseq]
    exact hlen
  refine ⟨?_, ?_, by rw [hmseq]; omega⟩
  · rw [stream_message_finish, hc]
    simp only []
    rw [if_neg (by omega)]
    rw [hmseq]
  · rw [hmseq]
    simp only [OutWF, msgSize]
    refine ⟨?_, ?_⟩ <;> omega

/-- C3: no byte of the in-progress message is committed before
`stream_message_finish`: the flushable region is exactly the first
`ready` bytes, and under the invariant the in-progress message starts
exactly at `ready`, so a `stream_flush` between start and finish
sends precisely the committed prefix and none of the message, whose
bytes survive the flush intact; a successful append grows only the
message (the committed count never grows); `stream_message_finish`
raises the committed count by exactly
`sizeof(ShubMessageHdr) + msg->size` (header plus accumulated
payload) and clears the cursor; and a successful
`stream_message_start` never grows the committed count either. -/
theorem C3_commit_only_at_finish (s : OStream) (off : Nat) (p : List Nat) (hwf : OutWF s.out)
    (hc : s.out.curOff = some off) :
    ((stream_flush s true).1 = s.out.data.take s.out.ready ∧
     s.out.data.take s.out.ready ++ s.out.data.drop off = s.out.data ∧
     (stream_flush s true).2.2.out.data = s.out.data.drop off) ∧
    (∀ s2, stream_message_append s p true = .ret true s2 →
       msgSize s2.out = msgSize s.out + p.length ∧ s2.out.ready ≤ s.out.ready) ∧
    (stream_message_finish s =
       .ret true ⟨s.good, ⟨s.out.data,
         s.out.ready + msgSize s.out + sizeofShubMessageHdr, none⟩⟩) ∧
    (∀ (s0 : OStream) (chan : Nat) (s1 : OStream), OutWF s0.out →
       stream_message_start s0 chan true = .ret true s1 →
       s1.out.ready ≤ s0.out.ready) := by
  have hsucc : (stream_flush s true).2.1 = true := by
    by_cases h0 : s.out.ready = 0
    · rw [stream_flush_eq_zero s true h0]
    · rw [stream_flush_eq_some s off h0 hc]
  have hspec := stream_flush_spec s true hwf hsucc
  have hwfs := hwf
  simp only [OutWF, hc] at hwfs
  refine ⟨⟨hspec.2.2.1, ?_, (hspec.2.2.2.2.2 off hc).2.2⟩, ?_, ?_, ?_⟩
  · rw [← hwfs.1]
    exact List.take_append_drop off s.out.data
  · intro s2 h2
    have ha := stream_message_append_spec s p true hwf s2 h2
    exact ⟨ha.2.2.2.1, ha.2.2.2.2⟩
  · exact (stream_message_finish_spec s hwf off hc).1
  · intro s0 chan s1 hwf0 h1
    exact (stream_message_start_spec s0 chan true hwf0 s1 h1).2.2.2.2.1

/-- C3 witness: a stream with 2 committed bytes and an in-progress
one-payload-byte message at offset 2; flushing sends exactly the 2
committed bytes and keeps the 10 message bytes, none of which were
sent. -/
theorem C3_witness :
    OutWF (⟨[5, 5, 1, 0, 0, 0, 114, 3, 0, 0, 0, 7], 2, some 2⟩ : OutBuf) ∧
    (stream_flush ⟨true, ⟨[5, 5, 1, 0, 0, 0, 114, 3, 0, 0, 0, 7], 2, some 2⟩⟩ true).1
      = [5, 5] ∧
    (stream_flush ⟨true, ⟨[5, 5, 1, 0, 0, 0, 114, 3, 0, 0, 0, 7], 2, some 2⟩⟩ true).2.2.out.data
      = [1, 0, 0, 0, 114, 3, 0, 0, 0, 7] ∧
    stream_message_finish ⟨true, ⟨[5, 5, 1, 0, 0, 0, 114, 3, 0, 0, 0, 7], 2, some 2⟩⟩
      = .ret true ⟨true, ⟨[5, 5, 1, 0, 0, 0, 114, 3, 0, 0, 0, 7], 12, none⟩⟩ := by
  have h := C3_commit_only_at_finish
    ⟨true, ⟨[5, 5, 1, 0, 0, 0, 114, 3, 0, 0, 0, 7], 2, some 2⟩⟩ 2 [9]
    (by decide) (by decide)
  refine ⟨by decide, ?_, ?_, ?_⟩
  · have hx := h.1.1
    simpa using hx
  · have hx := h.1.2.2
    simpa using hx
  · have hx := h.2.2.1
    simpa using hx

/-- C10: the output-capacity invariant: from any well-formed output
buffer, every successful output operation (start, append, finish,
flush) yields a well-formed buffer again, well-formedness means the
committed bytes plus the whole in-progress message (header included)
fit in `BUFFER_SIZE`, and in particular after a successful finish the
committed count is at most `BUFFER_SIZE` (the `assert` of line 340
holds). -/
theorem C10_output_capacity_invariant (s : OStream) (chan : Nat) (p : List Nat) (k : Bool)
    (hwf : OutWF s.out) :
    (∀ s1, stream_message_start s chan k = .ret true s1 → OutWF s1.out) ∧
    (∀ s2, stream_message_append s p k = .ret true s2 → OutWF s2.out) ∧
    (∀ s3, stream_message_finish s = .ret true s3 →
       OutWF s3.out ∧ s3.out.ready ≤ BUFFER_SIZE) ∧
    ((stream_flush s k).2.1 = true → OutWF (stream_flush s k).2.2.out) ∧
    s.out.ready + (match s.out.curOff with
      | none => 0
      | some _ => sizeofShubMessageHdr + msgSize s.out) ≤ BUFFER_SIZE := by
  refine ⟨?_, ?_, ?_, ?_, ?_⟩
  · intro s1 h1
    exact (stream_message_start_spec s chan k hwf s1 h1).1
  · intro s2 h2
    exact (stream_message_append_spec s p k hwf s2 h2).1
  · intro s3 h3
    rcases hc : s.out.curOff with _ | off
    · rw [stream_message_finish, hc] at h3
      cases h3
    · have hf := stream_message_finish_spec s hwf off hc
      rw [hf.1] at h3
      cases h3
      exact ⟨hf.2.1, hf.2.2⟩
  · intro hsucc
    exact (stream_flush_spec s k hwf hsucc).1
  · have hwfs := hwf
    rcases hc : s.out.curOff with _ | off <;> simp only [OutWF, hc] at hwfs <;>
      simp only [hc] <;> omega

/-- C10 witness: the invariant holds at a concrete mid-build stream
(2 committed bytes, a 10-byte in-progress message): committed plus
in-progress fits the buffer. -/
theorem C10_witness :
    OutWF (⟨[5, 5, 1, 0, 0, 0, 114, 3, 0, 0, 0, 7], 2, some 2⟩ : OutBuf) ∧
    (⟨[5, 5, 1, 0, 0, 0, 114, 3, 0, 0, 0, 7], 2, some 2⟩ : OutBuf).ready +
      (match (⟨[5, 5, 1, 0, 0, 0, 114, 3, 0, 0, 0, 7], 2, some 2⟩ : OutBuf).curOff with
       | none => 0
       | some _ => sizeofShubMessageHdr +
           msgSize ⟨[5, 5, 1, 0, 0, 0, 114, 3, 0, 0, 0, 7], 2, some 2⟩) ≤ BUFFER_SIZE :=
  ⟨by decide,
   (C10_output_capacity_invariant
     ⟨true, ⟨[5, 5, 1, 0, 0, 0, 114, 3, 0, 0, 0, 7], 2, some 2⟩⟩ 7 [9] true
     (by decide)).2.2.2.2⟩

theorem handleFrame_isSome (tbl : ClientTable) (f : Frame) (h : f.chan < MAX_TRANSACTIONS) :
    ∃ evs tbl1, handleFrame tbl f = some (evs, tbl1) := by
  rw [handleFrame, if_pos h]
  by_cases hc : f.code = MSG_DISCONNECT
  · rw [if_pos hc]
    exact ⟨_, _, rfl⟩
  · rw [if_neg hc]
    exact ⟨_, _, rfl⟩

theorem tailOk_of_suffix (bs : List Nat) (sz : Nat)
    (h1 : ¬bs.length < sizeofShubMessageHdr)
    (h2 : sizeofShubMessageHdr + decodeU32 (bs.take 4) ≤ bs.length)
    (hsz : sz = decodeU32 (bs.take 4)) :
    (splitFramesSpec bs).2 = (splitFramesSpec (bs.drop (sizeofShubMessageHdr + sz))).2 := by
  subst hsz
  rw [splitFramesSpec, dif_neg h1, dif_pos h2]

/-- The processing loop of `server_stream_handle` agrees with the
spec-side greedy framer: as long as every size field keeps
`sizeof(ShubMessageHdr) + size` within `int` range, every channel id
of a complete frame is within the table, and the leftover tail does
not declare an over-capacity total, the loop returns normally having
dispatched exactly the complete frames, with the tail as leftover. -/
theorem processLoop_eq_split (fuel : Nat) :
    ∀ (tp : Nat) (tbl : ClientTable) (data : List Nat),
    tp ≤ data.length → tp < fuel →
    sizesOk (data.drop (data.length - tp)) = true →
    chansOk (data.drop (data.length - tp)) = true →
    tailOk (data.drop (data.length - tp)) = true →
    ∃ evs tbl1,
      dispatchFrames tbl (splitFramesSpec (data.drop (data.length - tp))).1 = some (evs, tbl1) ∧
      processLoop fuel tbl data tp =
        .okDone evs tbl1 (splitFramesSpec (data.drop (data.length - tp))).2 := by
  induction fuel with
  | zero =>
    intro tp tbl data hle hfuel
    omega
  | succ f ih =>
    intro tp tbl data hle hfuel hsizes hchans htail
    have hrest : (data.drop (data.length - tp)).length = tp := by
      rw [List.length_drop]
      omega
    by_cases htp : tp < sizeofShubMessageHdr
    · rw [splitFramesSpec, dif_pos (by rw [hrest]; exact htp)]
      refine ⟨[], tbl, rfl, ?_⟩
      rw [processLoop, if_pos htp]
    · have hnl : ¬(data.drop (data.length - tp)).length < sizeofShubMessageHdr := by
        rw [hrest]
        exact htp
      rw [sizesOk, dif_neg hnl] at hsizes
      rw [Bool.and_eq_true, decide_eq_true_eq] at hsizes
      obtain ⟨hs31, hscond⟩ := hsizes
      have hto : toInt32 (sizeofShubMessageHdr +
          decodeU32 ((data.drop (data.length - tp)).take 4)) =
          (sizeofShubMessageHdr + decodeU32 ((data.drop (data.length - tp)).take 4) : Nat) :=
        toInt32_small _ hs31
      by_cases hcomp : sizeofShubMessageHdr +
          decodeU32 ((data.drop (data.length - tp)).take 4) ≤ tp
      · -- a complete frame: dispatch it and recurse
        have hcomp2 : sizeofShubMessageHdr +
            decodeU32 ((data.drop (data.length - tp)).take 4) ≤
            (data.drop (data.length - tp)).length := by
          rw [hrest]
          exact hcomp
        rw [dif_pos hcomp2] at hscond
        rw [splitFramesSpec, dif_neg hnl, dif_pos hcomp2]
        rw [chansOk, splitFramesSpec, dif_neg hnl, dif_pos hcomp2] at hchans
        simp only [List.all_cons, Bool.and_eq_true, decide_eq_true_eq] at hchans
        obtain ⟨hchan1, hchans2⟩ := hchans
        rw [tailOk, tailOk_of_suffix _ _ hnl hcomp2 rfl] at htail
        have hdropeq : (data.drop (data.length - tp)).drop (sizeofShubMessageHdr +
            decodeU32 ((data.drop (data.length - tp)).take 4)) =
            data.drop (data.length - (tp - (sizeofShubMessageHdr +
              decodeU32 ((data.drop (data.length - tp)).take 4)))) := by
          rw [List.drop_drop]
          congr 1
          omega
        obtain ⟨evs1, tbl2, hhf⟩ := handleFrame_isSome tbl
          ⟨decodeU32 ((data.drop (data.length - tp)).take 4),
           (data.drop (data.length - tp)).getD 4 0,
           decodeU32 (((data.drop (data.length - tp)).drop 5).take 4),
           ((data.drop (data.length - tp)).drop sizeofShubMessageHdr).take
             (decodeU32 ((data.drop (data.length - tp)).take 4))⟩ hchan1
        rw [hdropeq] at hscond
        have hih := ih (tp - (sizeofShubMessageHdr +
            decodeU32 ((data.drop (data.length - tp)).take 4))) tbl2 data
          (by omega) (by have h9 : sizeofShubMessageHdr = 9 := rfl; omega)
          hscond
          (by rw [chansOk, ← hdropeq]; exact hchans2)
          (by rw [tailOk, ← hdropeq]; exact htail)
        obtain ⟨evs2, tbl3, hdisp2, hloop2⟩ := hih
        refine ⟨evs1 ++ evs2, tbl3, ?_, ?_⟩
        · rw [← hdropeq] at hdisp2
          simp only [dispatchFrames, hhf, hdisp2]
        · rw [processLoop, if_neg htp, if_neg (by omega)]
          simp only [hto]
          rw [if_pos (by exact_mod_cast hcomp)]
          have htp2 : ((tp : Int) - (sizeofShubMessageHdr +
              decodeU32 ((data.drop (data.length - tp)).take 4) : Nat)).toNat =
              tp - (sizeofShubMessageHdr +
                decodeU32 ((data.drop (data.length - tp)).take 4)) :=
            Int.toNat_sub _ _
          rw [← hdropeq] at hloop2
          simp only [hhf, htp2, hloop2, LoopOut.prepend]
      · -- incomplete tail: the loop breaks, the framer stops
        rw [splitFramesSpec, dif_neg hnl,
          dif_neg (by rw [hrest]; exact hcomp)]
        rw [tailOk, splitFramesSpec, dif_neg hnl,
          dif_neg (by rw [hrest]; exact hcomp)] at htail
        simp only [Bool.or_eq_true, decide_eq_true_eq] at htail
        have hfits : sizeofShubMessageHdr +
            decodeU32 ((data.drop (data.length - tp)).take 4) ≤ BUFFER_SIZE := by
          rcases htail with h1 | h2
          · rw [hrest] at h1
            omega
          · exact h2
        refine ⟨[], tbl, rfl, ?_⟩
        rw [processLoop, if_neg htp, if_neg (by omega)]
        simp only [hto]
        rw [if_neg (by
          rw [not_le]
          exact_mod_cast Nat.lt_of_not_le (fun hx => hcomp hx))]
        rw [if_neg (by
          rw [not_lt]
          exact_mod_cast hfits)]

/-- C1 (amended): the read path of `server_stream_handle`, given that
every size field encountered keeps `sizeof(ShubMessageHdr) + size`
within `int` range (no truncating overflow — see the counterexample
for why this proviso is needed), that complete frames carry in-range
channel ids (otherwise the assert aborts, claim C6), and that the
leftover tail does not declare an over-capacity total (otherwise the
connection is marked bad, claim C2): a frame is dispatched if and
only if its complete header plus `size` payload bytes are buffered —
the dispatched frames are exactly those of the spec-side greedy
framer `splitFramesSpec` — and afterwards the remaining partial tail
bytes are compacted to the start of the input buffer with the
ready-byte count equal to the number of leftover bytes
(`input.ready = toprocess`, line 477). -/
theorem C1_read_path_framing (s : SStream) (bs : List Nat)
    (hroom : s.inbuf.length < BUFFER_SIZE)
    (hne : bs ≠ [])
    (hsizes : sizesOk (s.inbuf ++ bs.take (BUFFER_SIZE - s.inbuf.length)) = true)
    (hchans : chansOk (s.inbuf ++ bs.take (BUFFER_SIZE - s.inbuf.length)) = true)
    (htail : tailOk (s.inbuf ++ bs.take (BUFFER_SIZE - s.inbuf.length)) = true) :
    ∃ evs tbl1,
      dispatchFrames s.tbl
        (splitFramesSpec (s.inbuf ++ bs.take (BUFFER_SIZE - s.inbuf.length))).1
        = some (evs, tbl1) ∧
      server_stream_handle s bs = some (evs,
        { s with tbl := tbl1,
                 inbuf := (splitFramesSpec
                   (s.inbuf ++ bs.take (BUFFER_SIZE - s.inbuf.length))).2 }) := by
  have havail : BUFFER_SIZE - s.inbuf.length ≠ 0 := by omega
  have hrecv : ¬(bs.take (BUFFER_SIZE - s.inbuf.length)).isEmpty = true := by
    rw [List.isEmpty_iff, List.take_eq_nil_iff]
    push_neg
    exact ⟨havail, hne⟩
  have hsplit := processLoop_eq_split
    ((s.inbuf ++ bs.take (BUFFER_SIZE - s.inbuf.length)).length + 1)
    (s.inbuf ++ bs.take (BUFFER_SIZE - s.inbuf.length)).length
    s.tbl (s.inbuf ++ bs.take (BUFFER_SIZE - s.inbuf.length))
    (le_refl _) (by omega)
    (by simpa using hsizes) (by simpa using hchans) (by simpa using htail)
  obtain ⟨evs, tbl1, hdisp, hloop⟩ := hsplit
  simp only [Nat.sub_self, List.drop_zero] at hdisp hloop
  refine ⟨evs, tbl1, hdisp, ?_⟩
  rw [server_stream_handle, if_neg havail]
  simp only [hrecv, Bool.false_eq_true, if_false, hloop]

/-- C1 witness: a fresh stream receiving one complete frame
`{size = 2, code = 5, chan = 7}` with payload `[10, 20]` followed by
3 stray bytes dispatches exactly that frame and keeps `[1, 0, 0]`
compacted at the start of the input buffer. -/
theorem C1_witness :
    (⟨true, emptyClients, [], freshOut⟩ : SStream).inbuf.length < BUFFER_SIZE ∧
    ([2, 0, 0, 0, 5, 7, 0, 0, 0, 10, 20, 1, 0, 0] : List Nat) ≠ [] ∧
    ∃ evs tbl1,
      dispatchFrames (⟨true, emptyClients, [], freshOut⟩ : SStream).tbl
        (splitFramesSpec ((⟨true, emptyClients, [], freshOut⟩ : SStream).inbuf ++
          ([2, 0, 0, 0, 5, 7, 0, 0, 0, 10, 20, 1, 0, 0] : List Nat).take
            (BUFFER_SIZE - (⟨true, emptyClients, [], freshOut⟩ : SStream).inbuf.length))).1
        = some (evs, tbl1) ∧
      server_stream_handle ⟨true, emptyClients, [], freshOut⟩
          [2, 0, 0, 0, 5, 7, 0, 0, 0, 10, 20, 1, 0, 0] = some (evs,
        ⟨true, tbl1,
         (splitFramesSpec ((⟨true, emptyClients, [], freshOut⟩ : SStream).inbuf ++
            ([2, 0, 0, 0, 5, 7, 0, 0, 0, 10, 20, 1, 0, 0] : List Nat).take
              (BUFFER_SIZE -
                (⟨true, emptyClients, [], freshOut⟩ : SStream).inbuf.length))).2,
         freshOut⟩) :=
  ⟨by decide, by decide,
   C1_read_path_framing ⟨true, emptyClients, [], freshOut⟩
     [2, 0, 0, 0, 5, 7, 0, 0, 0, 10, 20, 1, 0, 0]
     (by decide) (by decide)
     (by show sizesOk [2, 0, 0, 0, 5, 7, 0, 0, 0, 10, 20, 1, 0, 0] = true
         rw [sizesOk]
         norm_num [decodeU32, sizeofShubMessageHdr]
         rw [sizesOk]
         norm_num [decodeU32, sizeofShubMessageHdr])
     (by show chansOk [2, 0, 0, 0, 5, 7, 0, 0, 0, 10, 20, 1, 0, 0] = true
         have hsplit : splitFramesSpec [2, 0, 0, 0, 5, 7, 0, 0, 0, 10, 20, 1, 0, 0]
             = ([⟨2, 5, 7, [10, 20]⟩], [1, 0, 0]) := by
           rw [splitFramesSpec]
           norm_num [decodeU32, sizeofShubMessageHdr]
           rw [splitFramesSpec]
           norm_num [decodeU32, sizeofShubMessageHdr]
         rw [chansOk, hsplit]
         decide)
     (by show tailOk [2, 0, 0, 0, 5, 7, 0, 0, 0, 10, 20, 1, 0, 0] = true
         have hsplit : splitFramesSpec [2, 0, 0, 0, 5, 7, 0, 0, 0, 10, 20, 1, 0, 0]
             = ([⟨2, 5, 7, [10, 20]⟩], [1, 0, 0]) := by
           rw [splitFramesSpec]
           norm_num [decodeU32, sizeofShubMessageHdr]
           rw [splitFramesSpec]
           norm_num [decodeU32, sizeofShubMessageHdr]
         rw [tailOk, hsplit]
         decide)⟩

theorem tickStep_fst : ∀ (xs : List (Nat × SStream × TickEv))
    (l : List (Nat × List Event × SStream)),
    tickStep xs = some l → l.map (fun p => p.1) = xs.map (fun p => p.1) := by
  intro xs
  induction xs with
  | nil =>
    intro l h
    rw [tickStep] at h
    cases h
    rfl
  | cons x rest ih =>
    intro l h
    rcases x with ⟨i, s, e⟩
    rw [tickStep] at h
    rcases ha : applyTickEv s e with _ | ⟨es, s1⟩ <;> rw [ha] at h
    · cases h
    · rcases hrest : tickStep rest with _ | l2 <;> rw [hrest] at h
      · cases h
      · cases h
        simp only [List.map_cons, ih l2 hrest]

theorem tickStep_nth : ∀ (xs : List (Nat × SStream × TickEv))
    (l : List (Nat × List Event × SStream)) (i : Nat) (x : Nat × SStream × TickEv),
    tickStep xs = some l → xs[i]? = some x →
    ∃ es s1, applyTickEv x.2.1 x.2.2 = some (es, s1) ∧ l[i]? = some (x.1, es, s1) := by
  intro xs
  induction xs with
  | nil =>
    intro l i x h hx
    simp at hx
  | cons y rest ih =>
    intro l i x h hx
    rcases y with ⟨j, s, e⟩
    rw [tickStep] at h
    rcases ha : applyTickEv s e with _ | ⟨es, s1⟩ <;> rw [ha] at h
    · cases h
    · rcases hrest : tickStep rest with _ | l2 <;> rw [hrest] at h
      · cases h
      · cases h
        cases i with
        | zero =>
          simp only [List.getElem?_cons_zero, Option.some_inj] at hx
          subst hx
          exact ⟨es, s1, ha, by simp⟩
        | succ i2 =>
          simp only [List.getElem?_cons_succ] at hx ⊢
          exact ih l2 i2 x hrest hx

/-- C7 (amended): `server_loop` runs `server_close_bad_streams`
before `server_flush` (lines 526-527), so: every flush attempted in
the end-of-tick flush belongs to a stream that survived the reap —
a stream destroyed in a tick is never flushed in that tick and its
pending output is discarded (destruction does NOT wait for pending
flushes); destroyed streams are removed from the used chain, so no
destroyed index appears among the survivors; and a stream hit by
`EPOLLERR` during the handling phase is destroyed at the end of that
same tick.  (A stream marked bad by the flush itself stays in the
chain — see the survivors — until the next tick's reap.) -/
theorem C7_reap_before_flush (streams : List SStream) (evs : List TickEv)
    (sendOk : Nat → Bool) (r : TickResult)
    (h : server_tick streams evs sendOk = some r) :
    (∀ p ∈ r.flushAttempts, ∃ q ∈ r.survivors, q.1 = p.1) ∧
    (∀ i ∈ r.destroyed, ∀ q ∈ r.survivors, q.1 ≠ i) ∧
    (∀ (i : Nat) (s : SStream), streams[i]? = some s → evs[i]? = some TickEv.err →
       i ∈ r.destroyed) := by
  rw [server_tick] at h
  rcases hstep : tickStep (((streams.zip evs).enum).map fun p => (p.1, p.2.1, p.2.2))
    with _ | l <;> rw [hstep] at h
  · cases h
  cases h
  have hfst : l.map (fun p => p.1) = List.range (streams.zip evs).length := by
    rw [tickStep_fst _ _ hstep, List.map_map]
    exact List.enum_map_fst _
  have hnodup : (l.map (fun p => p.1)).Nodup := by
    rw [hfst]
    exact List.nodup_range _
  refine ⟨?_, ?_, ?_⟩
  · intro p hp
    simp only [List.mem_filterMap] at hp
    obtain ⟨q, hq, hqeq⟩ := hp
    by_cases hr0 : q.2.2.out.ready = 0
    · rw [if_pos hr0] at hqeq
      cases hqeq
    · rw [if_neg hr0] at hqeq
      refine ⟨(q.1, { q.2.2 with
          good := (stream_flush ⟨q.2.2.good, q.2.2.out⟩ (sendOk q.1)).2.2.good,
          out := (stream_flush ⟨q.2.2.good, q.2.2.out⟩ (sendOk q.1)).2.2.out }), ?_, ?_⟩
      · exact List.mem_map.mpr ⟨q, hq, rfl⟩
      · cases hqeq
        rfl
  · intro i hi q hq
    simp only [List.mem_map] at hi hq
    obtain ⟨pb, hpb, hpbi⟩ := hi
    obtain ⟨pk, hpk, hpkq⟩ := hq
    have hpbl : pb ∈ l := List.mem_of_mem_filter hpb
    have hpkl : pk ∈ l := List.mem_of_mem_filter hpk
    intro hcontra
    have hpk1 : pk.1 = i := by
      rw [← hpkq] at hcontra
      exact hcontra
    have hfsteq : pk.1 = pb.1 := hpk1.trans hpbi.symm
    have heq : pk = pb := List.inj_on_of_nodup_map hnodup hpkl hpbl hfsteq
    have hgoodk := List.of_mem_filter hpk
    have hgoodb := List.of_mem_filter hpb
    rw [heq] at hgoodk
    simp at hgoodk hgoodb
    rw [hgoodk] at hgoodb
    cases hgoodb
  · intro i s hs he
    have hL : (((streams.zip evs).enum).map fun p => (p.1, p.2.1, p.2.2))[i]?
        = some (i, s, TickEv.err) := by
      rw [List.getElem?_map, List.getElem?_enum]
      have hz : (streams.zip evs)[i]? = some (s, TickEv.err) :=
        List.getElem?_zip_eq_some.mpr ⟨hs, he⟩
      rw [hz]
      rfl
    obtain ⟨es, s1, happ, hnth⟩ := tickStep_nth _ _ i (i, s, TickEv.err) hstep hL
    rw [applyTickEv] at happ
    cases happ
    have hmem : (i, ([] : List Event),
        { s with good := false }) ∈ l := List.getElem?_mem hnth
    refine List.mem_map.mpr ⟨(i, ([] : List Event), { s with good := false }), ?_, rfl⟩
    exact List.mem_filter.mpr ⟨hmem, by simp⟩

set_option maxRecDepth 40000 in
/-- C7 witness: a single stream hit by `EPOLLERR` is destroyed at the
end of the same tick (index 0 appears in the destroyed list of the
tick result). -/
theorem C7_witness :
    server_tick [⟨true, emptyClients, [], freshOut⟩] [TickEv.err] (fun _ => true)
      = some ⟨[], [], [0], [], []⟩ ∧
    (0 : Nat) ∈ (⟨[], [], [0], [], []⟩ : TickResult).destroyed :=
  ⟨rfl,
   (C7_reap_before_flush [⟨true, emptyClients, [], freshOut⟩] [TickEv.err]
     (fun _ => true) ⟨[], [], [0], [], []⟩ rfl).2.2 0
     ⟨true, emptyClients, [], freshOut⟩ rfl rfl⟩

set_option maxRecDepth 40000 in
/-- C7 counterexample: the claim states a bad connection is destroyed
"only after all pending flushes of its output buffer have been
attempted".  On the code this is false: `server_close_bad_streams`
runs before `server_flush`, so a stream that turns bad during
handling (here: EOF from the peer) is destroyed with one pending
output byte that is never handed to `send` — the tick's flush-attempt
list is empty even though the destroyed stream had `output.ready =
1`. -/
theorem C7_counterexample_destroyed_without_flush :
    server_tick [⟨true, emptyClients, [], ⟨[7], 1, none⟩⟩] [TickEv.dataIn []]
      (fun _ => true) = some ⟨[], [], [0], [], []⟩ ∧
    (⟨[7], 1, none⟩ : OutBuf).ready ≠ 0 :=
  ⟨rfl, by decide⟩
